import Mathlib

/-!
Verification development for the cocktail clustering pipeline
(`src/clusterer.py`, class `Clusterer`).

The pandas data-frame operations of the source are embedded shallowly over
Lean lists: a data frame is a list of records, a pivot table is a cell
function over row/column labels, joins are flat-maps over matching rows.
Volumes and matrix entries are rationals (ℚ); a possibly-missing numeric
value (pandas NaN) is an `Option ℚ`, a possibly-missing string an
`Option String`.

The numeric algorithms themselves (sklearn's `QuantileTransformer`,
`KMeans`, `SpectralClustering`, `PCA`) are library calls whose code is not
part of the repository; where a claim depends on their behaviour the
corresponding definition is modelled from the spec and says so in its doc
comment.
-/

/-- One row of the `cocktails_and_ingredients` composition table:
(cocktail_name, ingredient_name, volume_oz), volume possibly missing. -/
structure CompositionRecord where
  cocktail_name : String
  ingredient_name : String
  volume_oz : Option ℚ
deriving DecidableEq, Repr

/-- One row of the `cocktails` table (only the columns the embedded
pipeline reads: `name` and `abv`). -/
structure CocktailRecord where
  name : String
  abv : Option ℚ
deriving DecidableEq, Repr

/-- One row of the `ingredients` table (columns `name`, `type`,
`generalized_type`; the latter two may be missing). -/
structure IngredientRecord where
  name : String
  type : Option String
  generalized_type : Option String
deriving DecidableEq, Repr

/-! ### Generic data-frame helpers -/

/-- pandas `drop_duplicates(subset=[key], keep='first')`: keeps the first
row of each key group, in order of first appearance. -/
def dropDuplicatesBy {α : Type} {β : Type} [DecidableEq β] (key : α → β) :
    List α → List α
  | [] => []
  | x :: xs =>
      x :: dropDuplicatesBy key (xs.filter (fun y => key y ≠ key x))
termination_by l => l.length
decreasing_by
  simp only [List.length_cons]
  exact Nat.lt_succ_of_le (List.length_filter_le _ _)

/-! ### `generate_cocktails_and_ingredients_matrix_with_volumes`
(`src/clusterer.py:22-34`)

```python
volume_df = self.cocktails_and_ingredients[['cocktail_name',
    'ingredient_name', 'volume_oz']].fillna(0.01)
cocktail_matrix = volume_df.pivot_table(index='cocktail_name',
    columns='ingredient_name', values='volume_oz', fill_value=0)
```

`fillna(0.01)` replaces a missing `volume_oz` by the fixed epsilon 1/100.
`pivot_table` groups the rows by (cocktail_name, ingredient_name) and
aggregates each group's values with its *default* aggregation function,
the arithmetic mean (`aggfunc='mean'`); a (cocktail, ingredient) cell with
no group gets `fill_value=0`.  The matrix is represented by its row
labels, column labels and cell function.  (`pivot_table` additionally
sorts the row and column labels lexicographically; no claim concerns the
label order, so labels are kept in order of first appearance here.) -/

/-- The `fillna(0.01)` step: the volume used for a composition row, with a
missing value replaced by the epsilon 1/100. -/
def filledVolume (r : CompositionRecord) : ℚ :=
  r.volume_oz.getD (1 / 100)

/-- The group of composition rows contributing to cell (c, i). -/
def pivotGroup (rs : List CompositionRecord) (c i : String) :
    List CompositionRecord :=
  rs.filter (fun r => r.cocktail_name = c ∧ r.ingredient_name = i)

/-- One cell of the pivot table: the mean of the group's filled volumes,
or `fill_value = 0` when the group is empty (pandas `pivot_table` default
`aggfunc='mean'`). -/
def pivotCell (rs : List CompositionRecord) (c i : String) : ℚ :=
  let vs := (pivotGroup rs c i).map filledVolume
  if vs.length = 0 then 0 else vs.sum / vs.length

/-- Row labels of the pivot table: the distinct cocktail names appearing
in the composition table. -/
def pivotRows (rs : List CompositionRecord) : List String :=
  dropDuplicatesBy id (rs.map (fun r => r.cocktail_name))

/-- Column labels of the pivot table: the distinct ingredient names. -/
def pivotCols (rs : List CompositionRecord) : List String :=
  dropDuplicatesBy id (rs.map (fun r => r.ingredient_name))

/-- The full result of
`generate_cocktails_and_ingredients_matrix_with_volumes`: row labels,
column labels and the dense cell function. -/
def generate_cocktails_and_ingredients_matrix_with_volumes
    (rs : List CompositionRecord) :
    List String × List String × (String → String → ℚ) :=
  (pivotRows rs, pivotCols rs, pivotCell rs)

/-! ### `transform_matrix` (`src/clusterer.py:94-106`)

```python
quantile_transformer = QuantileTransformer(random_state=random_state,
                                           n_quantiles=len(matrix))
transformed_matrix = quantile_transformer.fit_transform(matrix)
return pd.DataFrame(transformed_matrix, index=matrix.index,
                    columns=matrix.columns)
```

The numeric kernel is sklearn's `QuantileTransformer`, which is not part
of the repository.  Modelled from the spec: per column the transformer
"estimates the empirical cumulative distribution from the column's own
values" and "maps each value to its rank-based position in a chosen
reference distribution (uniform [0,1])", fit and applied on the same
matrix, at full resolution (`n_quantiles = len(matrix)`, the row count,
exactly as the source passes it).  The rank-based position here is the
empirical CDF value count(col ≤ v) / rowcount. -/

/-- A pandas `DataFrame` of rationals: row labels, column labels, and the
rectangular data (one inner list per row). -/
structure DataMatrix where
  rowNames : List String
  colNames : List String
  data : List (List ℚ)
deriving DecidableEq, Repr

/-- Column `j` of the data (the values the quantile transformer fits
column `j` on). -/
def matrixColumn (data : List (List ℚ)) (j : ℕ) : List ℚ :=
  data.map (fun row => row.getD j 0)

/-- Modelled from the spec: the rank-based position of `v` in the
empirical distribution of the column — the fraction of column values ≤ v
(0 for an empty column; ℚ division by zero is 0). -/
def ecdfValue (col : List ℚ) (v : ℚ) : ℚ :=
  ((col.countP (fun x => x ≤ v) : ℚ)) / (col.length : ℚ)

/-- The quantile count the source passes to the transformer:
`n_quantiles=len(matrix)`, the row count of the input. -/
def transform_nQuantiles (m : DataMatrix) : ℕ :=
  m.data.length

/-- `transform_matrix`: quantile-transform every column against its own
empirical distribution, returning a frame with the same index and
columns as the input. -/
def transform_matrix (m : DataMatrix) : DataMatrix :=
  { rowNames := m.rowNames
    colNames := m.colNames
    data := m.data.map (fun row =>
      row.enum.map (fun p => ecdfValue (matrixColumn m.data p.1) p.2)) }

/-! ### `plot_scree_plot` / PCA explained variance
(`src/clusterer.py:167-185`)

The plot reads `pca.explained_variance_ratio_` after `PCA().fit`.
sklearn's PCA eigendecomposition is not part of the repository. -/

/-- Modelled from the spec: sklearn PCA's internals are absent from the
repository; per the spec `explainedVarianceRatios` is "the eigenvalues
normalized by their sum, sorted descending".  The argument is the
spectrum of the covariance matrix of the fitted data (nonnegative, the
covariance being positive semidefinite); the result is the sequence
`plot_scree_plot` bars. -/
def explained_variance_ratio (eigs : List ℚ) : List ℚ :=
  List.insertionSort (fun a b => b ≤ a)
    (eigs.map (fun e => e / eigs.sum))

/-! ### `kmeans_clustering` (`src/clusterer.py:108-121`) and
`spectral_clustering` (`src/clusterer.py:123-136`)

```python
kmeans = KMeans(n_clusters=n_clusters, random_state=random_state)
clusters = kmeans.fit_predict(transformed_matrix)
```
```python
spectral = SpectralClustering(n_clusters=n_clusters,
    affinity='nearest_neighbors', random_state=random_state)
clusters = spectral.fit_predict(transformed_matrix)
```

Both algorithms live in sklearn, not in the repository, and are modelled
from the spec.  The matrix is the list of its rows (feature vectors);
the seed is threaded explicitly, as the source threads `random_state`
into every stochastic operation. -/

/-- Squared Euclidean distance between two feature vectors. -/
def sqDist (x y : List ℚ) : ℚ :=
  ((x.zip y).map (fun p => (p.1 - p.2) ^ 2)).sum

/-- Index of the centroid nearest to `x`; for equidistant centroids the
lowest index wins (the spec's documented tie-break). -/
def nearestIdx (cents : List (List ℚ)) (x : List ℚ) : ℕ :=
  (cents.enum.foldl
    (fun best p => if sqDist x p.2 < best.2 then (p.1, sqDist x p.2) else best)
    (0, sqDist x (cents.headD []))).1

/-- A deterministic linear-congruential step deriving pseudo-random
numbers from the explicit seed. -/
def lcg (s : ℕ) : ℕ :=
  (1103515245 * s + 12345) % 2 ^ 31

/-- Modelled from the spec: centroid initialization by seeded sampling of
input rows (the spec's documented simpler variant of seeded
initialization; the draws are derived deterministically from `seed`). -/
def initCentroids (rows : List (List ℚ)) (k : ℕ) (seed : ℕ) :
    List (List ℚ) :=
  (List.range k).map (fun j => rows.getD (lcg (seed + j) % rows.length) [])

/-- Componentwise mean of a nonempty bag of vectors (used to recompute a
centroid from its assigned rows). -/
def meanVec (vs : List (List ℚ)) : List ℚ :=
  match vs with
  | [] => []
  | v :: _ =>
      (List.range v.length).map
        (fun j => ((vs.map (fun w => w.getD j 0)).sum) / (vs.length : ℚ))

/-- One Lloyd update: every centroid becomes the mean of the rows
assigned to it; a centroid that receives no rows keeps its position (the
documented empty-cluster policy of this model). -/
def centroidUpdate (rows : List (List ℚ)) (cents : List (List ℚ)) :
    List (List ℚ) :=
  (List.range cents.length).map (fun j =>
    let assigned := rows.filter (fun x => nearestIdx cents x = j)
    if assigned.isEmpty then cents.getD j [] else meanVec assigned)

/-- Lloyd iteration with the spec's recommended cap of 300 rounds,
stopping early once the centroids are stationary. -/
def kmeansIter (rows : List (List ℚ)) : ℕ → List (List ℚ) → List (List ℚ)
  | 0, cents => cents
  | n + 1, cents =>
      let cents' := centroidUpdate rows cents
      if cents' = cents then cents else kmeansIter rows n cents'

/-- The unvalidated K-means kernel: initialize from the seed, iterate,
label every row with its nearest final centroid. -/
def kmeansCore (rows : List (List ℚ)) (k : ℕ) (seed : ℕ) : List ℕ :=
  let cents := kmeansIter rows 300 (initCentroids rows k seed)
  rows.map (nearestIdx cents)

/-- Modelled from the spec: `kmeans_clustering` — sklearn `KMeans`
validates its parameters before any numeric work (`n_clusters` must be a
positive integer and at most the number of samples) and otherwise
labels every row with a cluster id, deterministically in
(matrix, k, seed). -/
def kmeans_clustering (m : List (List ℚ)) (k : ℕ) (seed : ℕ) :
    Except String (List ℕ) :=
  if k = 0 ∨ m.length < k then
    .error "n_clusters must be a positive integer no larger than the number of samples"
  else
    .ok (kmeansCore m k seed)

/-- The `n_neighbors` default of sklearn's nearest-neighbours affinity. -/
def spectralNeighbors : ℕ := 10

/-- The `i`-th row's nearest neighbours: the other row indices ordered by
squared distance, the closest `spectralNeighbors` of them. -/
def knnOf (rows : List (List ℚ)) (i : ℕ) : List ℕ :=
  (List.insertionSort
      (fun a b => sqDist (rows.getD a []) (rows.getD i []) ≤
        sqDist (rows.getD b []) (rows.getD i []))
      ((List.range rows.length).filter (fun j => j ≠ i))).take
    spectralNeighbors

/-- Symmetrized nearest-neighbour affinity: 1 when either row lists the
other among its nearest neighbours. -/
def affinity (rows : List (List ℚ)) (i j : ℕ) : ℚ :=
  if j ∈ knnOf rows i ∨ i ∈ knnOf rows j then 1 else 0

/-- Degree of row `i` in the affinity graph. -/
def degreeOf (rows : List (List ℚ)) (i : ℕ) : ℚ :=
  ((List.range rows.length).map (fun j => affinity rows i j)).sum

/-- Entry (i, j) of the shifted normalized Laplacian 2·I − L with
L = I − D⁻¹·A (the random-walk normalized Laplacian; the spectrum of L
lies in [0, 2], so the largest eigenvectors of the shift are the smallest
of L).  Rational arithmetic: an isolated row has degree 0 and its row of
D⁻¹·A is 0. -/
def shiftedLaplacian (rows : List (List ℚ)) (i j : ℕ) : ℚ :=
  (if i = j then (1 : ℚ) else 0) + affinity rows i j / degreeOf rows i

/-- Multiply the shifted Laplacian by a vector. -/
def lapMulVec (rows : List (List ℚ)) (v : List ℚ) : List ℚ :=
  (List.range rows.length).map (fun i =>
    ((List.range rows.length).map
      (fun j => shiftedLaplacian rows i j * v.getD j 0)).sum)

/-- Remove from `v` its component along `u` (rational Gram–Schmidt step,
no square roots needed). -/
def deflate (u v : List ℚ) : List ℚ :=
  let c := ((u.zip v).map (fun p => p.1 * p.2)).sum /
    ((u.map (fun x => x ^ 2)).sum)
  (v.zip u).map (fun p => p.1 - c * p.2)

/-- Normalize a vector by its largest absolute component (square-root
free stand-in for unit normalization; the zero vector stays zero). -/
def normalizeInf (v : List ℚ) : List ℚ :=
  let m := (v.map (fun x => |x|)).foldl max 0
  v.map (fun x => x / m)

/-- One power-iteration pass for the next eigenvector, deflating against
the eigenvectors already found. -/
def powerStep (rows : List (List ℚ)) (found : List (List ℚ))
    (v : List ℚ) : List ℚ :=
  normalizeInf (found.foldl (fun w u => deflate u w) (lapMulVec rows v))

/-- A seeded pseudo-random start vector for power iteration. -/
def seedVector (n : ℕ) (seed : ℕ) : List ℚ :=
  (List.range n).map (fun i => ((lcg (seed + i) % 1000 : ℕ) : ℚ) / 1000)

/-- Extract `k` approximate leading eigenvectors of the shifted
Laplacian (equivalently the eigenvectors of the `k` smallest eigenvalues
of the Laplacian) by deflated power iteration, 30 rounds each. -/
def spectralVectors (rows : List (List ℚ)) (k : ℕ) (seed : ℕ) :
    List (List ℚ) :=
  (List.range k).foldl
    (fun found j =>
      found ++ [Nat.rec (seedVector rows.length (seed + j))
        (fun _ v => powerStep rows found v) 30])
    []

/-- Modelled from the spec: the spectral embedding — row `i` of the
matrix becomes the vector of the `i`-th coordinates of the `k` extracted
eigenvectors (one embedded row per input row). -/
def spectralEmbed (rows : List (List ℚ)) (k : ℕ) (seed : ℕ) :
    List (List ℚ) :=
  (List.range rows.length).map (fun i =>
    (spectralVectors rows k seed).map (fun v => v.getD i 0))

/-- Modelled from the spec: `spectral_clustering` — sklearn
`SpectralClustering` with `affinity='nearest_neighbors'`: validate the
parameters, build the nearest-neighbour affinity graph, embed the rows
with the eigenvectors of the smallest Laplacian eigenvalues and run
K-means on the embedding, deterministically in (matrix, k, seed). -/
def spectral_clustering (m : List (List ℚ)) (k : ℕ) (seed : ℕ) :
    Except String (List ℕ) :=
  if k = 0 ∨ m.length < k then
    .error "n_clusters must be a positive integer no larger than the number of samples"
  else
    .ok (kmeansCore (spectralEmbed m k seed) k seed)

/-! ### `generate_table_with_cocktails_and_their_main_ingr_type`
(`src/clusterer.py:36-71`)

```python
result_df = self.cocktails_and_ingredients.set_index('cocktail_name').join(
    self.cocktails.set_index('name')[['abv']], how='left').reset_index()
result_df = self.ingredients[['name', 'type', 'generalized_type']].merge(
    result_df, left_on='name', right_on='ingredient_name', how='inner')
result_df.dropna(subset=['type'], inplace=True)
result_df.drop(columns=['name'], inplace=True)
result_df.sort_values(by='cocktail_name', ascending=True, inplace=True)
max_volume_type_df = (
    result_df.loc[result_df['generalized_type'] == "Alcoholic"]
    .sort_values(by=['cocktail_name', 'volume_oz'], ascending=[True, False])
    .drop_duplicates(subset=['cocktail_name'], keep='first')
    [['cocktail_name', 'type']])
max_volume_type_df.rename(columns={'type': 'primary_alcohol_type'},
                          inplace=True)
result_df = result_df.merge(max_volume_type_df, on='cocktail_name',
                            how='left')
result_df = result_df[['primary_alcohol_type', 'cocktail_name']]
result_df.drop_duplicates(inplace=True)
result_df.reset_index(inplace=True)
```

The sorts are modelled as stable sorts (pandas multi-key `sort_values`
is a stable lexsort; the single-key sort of line 55 is modelled stable
too), with missing values ordered last (`na_position='last'`). -/

/-- A row of `result_df` after the two joins and the column drop:
(type, generalized_type, cocktail_name, ingredient_name, volume_oz,
abv). -/
structure JoinedRow where
  type : Option String
  generalized_type : Option String
  cocktail_name : String
  ingredient_name : String
  volume_oz : Option ℚ
  abv : Option ℚ
deriving DecidableEq, Repr

/-- Lines 43-46: left-join the compositions with the cocktails' `abv` on
the cocktail name — every composition row pairs with each cocktail row of
that name, or carries a missing abv when there is none. -/
def joinAbv (comps : List CompositionRecord)
    (cocktails : List CocktailRecord) :
    List (CompositionRecord × Option ℚ) :=
  comps.flatMap (fun r =>
    match cocktails.filter (fun c => c.name = r.cocktail_name) with
    | [] => [(r, none)]
    | ms => ms.map (fun c => (r, c.abv)))

/-- Lines 48-50 and 53: inner-merge the ingredients'
(name, type, generalized_type) onto the joined rows by ingredient name
(pandas keeps the left frame's — the ingredients' — key order on an
inner merge), then drop the redundant `name` column. -/
def mergeIngredients (ingredients : List IngredientRecord)
    (rows : List (CompositionRecord × Option ℚ)) : List JoinedRow :=
  ingredients.flatMap (fun ing =>
    (rows.filter (fun rc => rc.1.ingredient_name = ing.name)).map
      (fun rc => ⟨ing.type, ing.generalized_type, rc.1.cocktail_name,
        rc.1.ingredient_name, rc.1.volume_oz, rc.2⟩))

/-- Line 52: `dropna(subset=['type'])`. -/
def dropNaType (l : List JoinedRow) : List JoinedRow :=
  l.filter (fun r => r.type.isSome)

/-- `result_df` as it stands after line 52 (joins plus type dropna). -/
def joined_result_df (cocktails : List CocktailRecord)
    (ingredients : List IngredientRecord)
    (comps : List CompositionRecord) : List JoinedRow :=
  dropNaType (mergeIngredients ingredients (joinAbv comps cocktails))

/-- Line 55: `sort_values(by='cocktail_name', ascending=True)`. -/
def sortByCocktail (l : List JoinedRow) : List JoinedRow :=
  List.insertionSort (fun a b => a.cocktail_name ≤ b.cocktail_name) l

/-- `result_df` as it stands after line 55 (the frame both line 57 and
line 66 read). -/
def sorted_result_df (cocktails : List CocktailRecord)
    (ingredients : List IngredientRecord)
    (comps : List CompositionRecord) : List JoinedRow :=
  sortByCocktail (joined_result_df cocktails ingredients comps)

/-- Line 58's filter: the rows with generalized_type == "Alcoholic"
(a missing generalized_type compares unequal and is dropped). -/
def alcoholic_rows (l : List JoinedRow) : List JoinedRow :=
  l.filter (fun r => r.generalized_type = some "Alcoholic")

/-- The descending sort key of line 59's second column: a missing
volume_oz sorts after every number (`na_position='last'`). -/
def volKey (r : JoinedRow) : WithBot ℚ :=
  match r.volume_oz with
  | none => ⊥
  | some q => (q : WithBot ℚ)

/-- Line 59's two-key ordering: cocktail_name ascending, then volume_oz
descending (missing volumes last). -/
def lexLE (a b : JoinedRow) : Prop :=
  a.cocktail_name < b.cocktail_name ∨
    (a.cocktail_name = b.cocktail_name ∧ volKey b ≤ volKey a)

instance : DecidableRel lexLE := fun a b => by
  unfold lexLE
  exact inferInstance

instance : IsTotal JoinedRow lexLE :=
  ⟨fun a b => by
    unfold lexLE
    rcases lt_trichotomy a.cocktail_name b.cocktail_name with h | h | h
    · exact Or.inl (Or.inl h)
    · rcases le_total (volKey b) (volKey a) with hv | hv
      · exact Or.inl (Or.inr ⟨h, hv⟩)
      · exact Or.inr (Or.inr ⟨h.symm, hv⟩)
    · exact Or.inr (Or.inl h)⟩

instance : IsTrans JoinedRow lexLE :=
  ⟨fun a b c hab hbc => by
    unfold lexLE at *
    rcases hab with h1 | ⟨h1, hv1⟩ <;> rcases hbc with h2 | ⟨h2, hv2⟩
    · exact Or.inl (lt_trans h1 h2)
    · exact Or.inl (lt_of_lt_of_eq h1 h2)
    · exact Or.inl (lt_of_eq_of_lt h1 h2)
    · exact Or.inr ⟨h1.trans h2, le_trans hv2 hv1⟩⟩

/-- Lines 57-64: filter to alcoholic rows, stable-sort by (cocktail
ascending, volume descending), keep the first row per cocktail, project
to (cocktail_name, type) — the `primary_alcohol_type` table. -/
def max_volume_type_df (l : List JoinedRow) :
    List (String × Option String) :=
  (dropDuplicatesBy (fun r => r.cocktail_name)
      (List.insertionSort lexLE (alcoholic_rows l))).map
    (fun r => (r.cocktail_name, r.type))

/-- Line 66's left merge, seen from one left row: the
`primary_alcohol_type` attached to cocktail `c` (the keys of
`max_volume_type_df` are unique, so the merge is a lookup; no match is
pandas NaN, i.e. `none`). -/
def lookupPrimary (tbl : List (String × Option String)) (c : String) :
    Option String :=
  match tbl.find? (fun p => p.1 = c) with
  | some p => p.2
  | none => none

/-- `generate_table_with_cocktails_and_their_main_ingr_type`
(lines 36-71): the final (primary_alcohol_type, cocktail_name) pairs
after the left merge, projection, drop_duplicates and reset_index. -/
def generate_table_with_cocktails_and_their_main_ingr_type
    (cocktails : List CocktailRecord)
    (ingredients : List IngredientRecord)
    (comps : List CompositionRecord) : List (Option String × String) :=
  let sorted := sorted_result_df cocktails ingredients comps
  let maxdf := max_volume_type_df sorted
  dropDuplicatesBy id
    (sorted.map (fun r => (lookupPrimary maxdf r.cocktail_name,
      r.cocktail_name)))

-- ===================================================================
-- Theorems
-- ===================================================================

/-! ### Generic lemmas about the data-frame helpers -/

/-- Every row kept by `dropDuplicatesBy` is a row of the input. -/
theorem mem_of_mem_dropDuplicatesBy {α β : Type} [DecidableEq β]
    (key : α → β) : ∀ (l : List α) (x : α),
    x ∈ dropDuplicatesBy key l → x ∈ l
  | [], x, hx => by simp [dropDuplicatesBy] at hx
  | y :: ys, x, hx => by
      rw [dropDuplicatesBy] at hx
      rcases List.mem_cons.mp hx with h | h
      · exact h ▸ List.mem_cons_self _ _
      · have := mem_of_mem_dropDuplicatesBy key
          (ys.filter (fun z => key z ≠ key y)) x h
        exact List.mem_cons_of_mem _ (List.mem_of_mem_filter this)
termination_by l => l.length
decreasing_by
  simp only [List.length_cons]
  exact Nat.lt_succ_of_le (List.length_filter_le _ _)

/-- If every `p`-row is a `q`-row, filtering by `q` does not change the
first `p`-row found. -/
theorem find?_filter_of_imp {α : Type} (p q : α → Bool)
    (hpq : ∀ x, p x = true → q x = true) :
    ∀ l : List α, (l.filter q).find? p = l.find? p := by
  intro l
  induction l with
  | nil => rfl
  | cons x xs ih =>
    by_cases hq : q x = true
    · rw [List.filter_cons_of_pos hq]
      by_cases hp : p x = true
      · rw [List.find?_cons_of_pos _ hp, List.find?_cons_of_pos _ hp]
      · rw [List.find?_cons_of_neg _ hp, List.find?_cons_of_neg _ hp]
        exact ih
    · rw [List.filter_cons_of_neg hq]
      have hp : ¬ p x = true := fun h => hq (hpq x h)
      rw [List.find?_cons_of_neg _ hp]
      exact ih

/-- `dropDuplicatesBy` keeps, for each key value, exactly the first row of
the input carrying that key: searching it for a key finds the same row as
searching the input. -/
theorem find?_dropDuplicatesBy {α β : Type} [DecidableEq β]
    (key : α → β) (c : β) : ∀ l : List α,
    (dropDuplicatesBy key l).find? (fun x => key x = c) =
      l.find? (fun x => key x = c)
  | [] => by simp [dropDuplicatesBy]
  | y :: ys => by
      rw [dropDuplicatesBy]
      by_cases hy : key y = c
      · rw [List.find?_cons_of_pos _ (by simp [hy]),
          List.find?_cons_of_pos _ (by simp [hy])]
      · rw [List.find?_cons_of_neg _ (by simp [hy]),
          List.find?_cons_of_neg _ (by simp [hy])]
        rw [find?_dropDuplicatesBy key c (ys.filter (fun z => key z ≠ key y))]
        exact find?_filter_of_imp _ _
          (fun x hx => by
            simp only [decide_eq_true_eq] at hx
            simp only [ne_eq, decide_not, Bool.not_eq_true',
              decide_eq_false_iff_not]
            intro hk; exact hy (hk ▸ hx)) ys
termination_by l => l.length
decreasing_by
  simp only [List.length_cons]
  exact Nat.lt_succ_of_le (List.length_filter_le _ _)

/-- The keys of the rows kept by `dropDuplicatesBy` are pairwise distinct. -/
theorem pairwise_ne_key_dropDuplicatesBy {α β : Type} [DecidableEq β]
    (key : α → β) : ∀ l : List α,
    (dropDuplicatesBy key l).Pairwise (fun a b => key a ≠ key b)
  | [] => by simp [dropDuplicatesBy]
  | y :: ys => by
      rw [dropDuplicatesBy]
      refine List.Pairwise.cons ?_
        (pairwise_ne_key_dropDuplicatesBy key
          (ys.filter (fun z => key z ≠ key y)))
      intro b hb
      have hb' := mem_of_mem_dropDuplicatesBy _ _ _ hb
      have := List.of_mem_filter hb'
      simp only [ne_eq, decide_not, Bool.not_eq_true',
        decide_eq_false_iff_not] at this
      exact fun h => this h.symm
termination_by l => l.length
decreasing_by
  simp only [List.length_cons]
  exact Nat.lt_succ_of_le (List.length_filter_le _ _)

/-- A value occurring in the input occurs in the deduplicated list. -/
theorem mem_dropDuplicatesBy_id {α : Type} [DecidableEq α] (l : List α)
    (c : α) (hc : c ∈ l) : c ∈ dropDuplicatesBy id l := by
  have hsome : (l.find? (fun x => id x = c)).isSome = true :=
    List.find?_isSome.mpr ⟨c, hc, by simp⟩
  rw [← find?_dropDuplicatesBy id c l] at hsome
  obtain ⟨y, hy⟩ := Option.isSome_iff_exists.mp hsome
  have hyc : id y = c := by simpa using List.find?_some hy
  exact hyc ▸ List.mem_of_find?_eq_some hy

/-! ### Claims C1 and C3: the volume pivot matrix -/

/-- C1 counterexample.  The claim says duplicate (cocktail, ingredient)
rows are resolved last-wins.  On the input with rows
("A", "X", 1 oz) and ("A", "X", 3 oz) the cell of
`generate_cocktails_and_ingredients_matrix_with_volumes` holds the mean 2
(pandas `pivot_table` default `aggfunc='mean'`), not the last value 3. -/
theorem pivot_duplicate_not_last_wins :
    pivotCell [⟨"A", "X", some 1⟩, ⟨"A", "X", some 3⟩] "A" "X" = 2 ∧
      pivotCell [⟨"A", "X", some 1⟩, ⟨"A", "X", some 3⟩] "A" "X" ≠
        filledVolume ⟨"A", "X", some 3⟩ := by
  constructor
  · norm_num [pivotCell, pivotGroup, filledVolume, List.filter]
  · norm_num [pivotCell, pivotGroup, filledVolume, List.filter]

/-- C1 (amended).  Duplicate (cocktail, ingredient) rows are resolved
deterministically by the arithmetic mean of the group's filled volumes:
the cell times the group size equals the group's volume sum, and the cell
is invariant under any reordering of the composition table (which
last-wins is not). -/
theorem pivot_duplicate_mean_wins (rs : List CompositionRecord)
    (c i : String) (h : pivotGroup rs c i ≠ []) :
    pivotCell rs c i * ((pivotGroup rs c i).length : ℚ) =
        ((pivotGroup rs c i).map filledVolume).sum ∧
      ∀ rs' : List CompositionRecord, rs'.Perm rs →
        pivotCell rs' c i = pivotCell rs c i := by
  constructor
  · have hlen : (pivotGroup rs c i).length ≠ 0 := by
      simpa [List.length_eq_zero] using h
    have hlenq : ((pivotGroup rs c i).length : ℚ) ≠ 0 := by
      exact_mod_cast hlen
    simp only [pivotCell, List.length_map]
    rw [if_neg hlen]
    exact div_mul_cancel₀ _ hlenq
  · intro rs' hperm
    have hg : (pivotGroup rs' c i).Perm (pivotGroup rs c i) :=
      hperm.filter _
    have hm : ((pivotGroup rs' c i).map filledVolume).Perm
        ((pivotGroup rs c i).map filledVolume) := hg.map _
    simp only [pivotCell, hm.sum_eq, hm.length_eq]

/-- Witness for `pivot_duplicate_mean_wins` at the duplicate-row input. -/
theorem pivot_duplicate_mean_wins_witness :
    pivotCell [⟨"A", "X", some 1⟩, ⟨"A", "X", some 3⟩] "A" "X" *
        ((pivotGroup [⟨"A", "X", some 1⟩, ⟨"A", "X", some 3⟩] "A" "X").length : ℚ) =
        ((pivotGroup [⟨"A", "X", some 1⟩, ⟨"A", "X", some 3⟩] "A" "X").map
          filledVolume).sum ∧
      ∀ rs' : List CompositionRecord,
        rs'.Perm [⟨"A", "X", some 1⟩, ⟨"A", "X", some 3⟩] →
        pivotCell rs' "A" "X" =
          pivotCell [⟨"A", "X", some 1⟩, ⟨"A", "X", some 3⟩] "A" "X" :=
  pivot_duplicate_mean_wins [⟨"A", "X", some 1⟩, ⟨"A", "X", some 3⟩]
    "A" "X" (by decide)

/-- C3.  The volume matrix has exactly one row per cocktail present in
the composition table; a (cocktail, ingredient) pair whose single record
has a missing volume gets the epsilon 1/100; a pair absent from the
compositions gets the dense fill value 0. -/
theorem pivot_rows_fillna_and_fill_value (rs : List CompositionRecord)
    (c : String) (hc : c ∈ rs.map (fun r => r.cocktail_name))
    (c' i' : String) (r' : CompositionRecord)
    (hsing : pivotGroup rs c' i' = [r']) (hmiss : r'.volume_oz = none)
    (c'' i'' : String) (habs : pivotGroup rs c'' i'' = []) :
    (pivotRows rs).count c = 1 ∧
      pivotCell rs c' i' = 1 / 100 ∧
      pivotCell rs c'' i'' = 0 := by
  refine ⟨?_, ?_, ?_⟩
  · have hnd : (pivotRows rs).Nodup :=
      pairwise_ne_key_dropDuplicatesBy id _
    exact List.count_eq_one_of_mem hnd (mem_dropDuplicatesBy_id _ _ hc)
  · simp [pivotCell, hsing, filledVolume, hmiss]
  · simp [pivotCell, habs]

/-- Witness for `pivot_rows_fillna_and_fill_value` on a concrete table:
cocktail "A" appears twice, the ("A","X") record has a missing volume and
("A","Y") never occurs. -/
theorem pivot_rows_fillna_and_fill_value_witness :
    (pivotRows [⟨"A", "X", none⟩, ⟨"A", "Z", some 2⟩, ⟨"B", "Z", some 1⟩]).count "A" = 1 ∧
      pivotCell [⟨"A", "X", none⟩, ⟨"A", "Z", some 2⟩, ⟨"B", "Z", some 1⟩] "A" "X" = 1 / 100 ∧
      pivotCell [⟨"A", "X", none⟩, ⟨"A", "Z", some 2⟩, ⟨"B", "Z", some 1⟩] "A" "Y" = 0 :=
  pivot_rows_fillna_and_fill_value
    [⟨"A", "X", none⟩, ⟨"A", "Z", some 2⟩, ⟨"B", "Z", some 1⟩]
    "A" (by decide) "A" "X" ⟨"A", "X", none⟩ (by decide) rfl
    "A" "Y" (by decide)

/-! ### Claims C5 and C6: the quantile normalizer -/

/-- The empirical-CDF position always lies in the unit interval. -/
theorem ecdfValue_mem_unit (col : List ℚ) (v : ℚ) :
    0 ≤ ecdfValue col v ∧ ecdfValue col v ≤ 1 := by
  unfold ecdfValue
  constructor
  · exact div_nonneg (by positivity) (by positivity)
  · rcases Nat.eq_zero_or_pos col.length with h0 | hpos
    · rw [h0]
      norm_num
    · rw [div_le_one (by exact_mod_cast hpos)]
      exact_mod_cast List.countP_le_length _

/-- C5.  `transform_matrix` returns a frame with the same row labels,
column labels and row lengths as its input, and every entry lies in the
uniform reference distribution's support [0, 1]. -/
theorem transform_matrix_shape_and_unit_range (m : DataMatrix) :
    (transform_matrix m).rowNames = m.rowNames ∧
      (transform_matrix m).colNames = m.colNames ∧
      (transform_matrix m).data.map List.length = m.data.map List.length ∧
      ∀ row ∈ (transform_matrix m).data, ∀ v ∈ row, 0 ≤ v ∧ v ≤ 1 := by
  refine ⟨rfl, rfl, ?_, ?_⟩
  · simp only [transform_matrix, List.map_map]
    exact List.map_congr_left (fun row _ => by
      simp [List.enum_length])
  · intro row hrow v hv
    simp only [transform_matrix, List.mem_map] at hrow
    obtain ⟨orig, _, rfl⟩ := hrow
    simp only [List.mem_map] at hv
    obtain ⟨p, _, rfl⟩ := hv
    exact ecdfValue_mem_unit _ _

/-- Witness for `transform_matrix_shape_and_unit_range` on the 2×1 matrix
[[1],[2]]: the transformed first row is [1/2], which lies in [0,1]. -/
theorem transform_matrix_shape_and_unit_range_witness :
    0 ≤ (1 : ℚ) / 2 ∧ (1 : ℚ) / 2 ≤ 1 :=
  (transform_matrix_shape_and_unit_range
      ⟨["r1", "r2"], ["c1"], [[1], [2]]⟩).2.2.2
    [1 / 2] (by norm_num [transform_matrix, matrixColumn, ecdfValue, List.enum])
    (1 / 2) (by norm_num)

/-- C6.  On a matrix whose column `j` is constant, `transform_matrix`
maps every row's column-`j` entry to one and the same output value (the
empirical-CDF position of the constant), and the transform is a total
function — no division-by-zero fault occurs. -/
theorem transform_matrix_constant_column (m : DataMatrix) (j : ℕ) (a : ℚ)
    (hj : ∀ row ∈ m.data, j < row.length)
    (hconst : ∀ row ∈ m.data, row.getD j 0 = a) :
    ∀ row ∈ (transform_matrix m).data,
      row.getD j 0 = ecdfValue (matrixColumn m.data j) a := by
  intro row hrow
  simp only [transform_matrix, List.mem_map] at hrow
  obtain ⟨orig, horig, rfl⟩ := hrow
  have hjo : j < orig.length := hj orig horig
  have hlen : j < (orig.enum.map
      (fun p => ecdfValue (matrixColumn m.data p.1) p.2)).length := by
    simpa [List.enum_length] using hjo
  rw [List.getD_eq_getElem _ _ hlen, List.getElem_map,
    List.getElem_enum]
  have : orig[j] = a := by
    rw [← List.getD_eq_getElem orig 0 hjo]
    exact hconst orig horig
  rw [this]

/-- Witness for `transform_matrix_constant_column` on the 2×1 constant
matrix [[5],[5]]: the transformed entries of the column all equal the CDF
position of 5. -/
theorem transform_matrix_constant_column_witness :
    ([(1 : ℚ)]).getD 0 0 = ecdfValue (matrixColumn [[(5 : ℚ)], [5]] 0) 5 :=
  transform_matrix_constant_column ⟨["r1", "r2"], ["c1"], [[5], [5]]⟩ 0 5
    (by decide) (by decide) [(1 : ℚ)]
    (by norm_num [transform_matrix, matrixColumn, ecdfValue, List.enum])

/-! ### Lemmas about the K-means kernel -/

/-- The nearest-centroid index is always a valid centroid index. -/
theorem nearestIdx_lt (cents : List (List ℚ)) (x : List ℚ)
    (h : cents ≠ []) : nearestIdx cents x < cents.length := by
  unfold nearestIdx
  have hinv : ∀ (l : List (ℕ × List ℚ)) (init : ℕ × ℚ),
      (∀ p ∈ l, p.1 < cents.length) → init.1 < cents.length →
      (l.foldl (fun best p =>
          if sqDist x p.2 < best.2 then (p.1, sqDist x p.2) else best)
        init).1 < cents.length := by
    intro l
    induction l with
    | nil => intro init _ h0; exact h0
    | cons a as ih =>
      intro init hall h0
      simp only [List.foldl_cons]
      apply ih
      · intro p hp; exact hall p (List.mem_cons_of_mem _ hp)
      · by_cases hc : sqDist x a.2 < init.2
        · simpa [hc] using hall a (List.mem_cons_self _ _)
        · simpa [hc] using h0
  apply hinv
  · intro p hp
    obtain ⟨i, c⟩ := p
    rw [List.enum_eq_zip_range] at hp
    exact List.mem_range.mp (List.of_mem_zip hp).1
  · exact List.length_pos.mpr h

/-- Seeded initialization yields exactly `k` centroids. -/
theorem length_initCentroids (rows : List (List ℚ)) (k seed : ℕ) :
    (initCentroids rows k seed).length = k := by
  simp [initCentroids]

/-- A Lloyd update keeps the number of centroids. -/
theorem length_centroidUpdate (rows cents : List (List ℚ)) :
    (centroidUpdate rows cents).length = cents.length := by
  simp [centroidUpdate]

/-- Lloyd iteration keeps the number of centroids. -/
theorem length_kmeansIter (rows : List (List ℚ)) :
    ∀ (fuel : ℕ) (cents : List (List ℚ)),
    (kmeansIter rows fuel cents).length = cents.length := by
  intro fuel
  induction fuel with
  | zero => intro cents; rfl
  | succ n ih =>
    intro cents
    rw [kmeansIter]
    by_cases h : centroidUpdate rows cents = cents
    · rw [if_pos h]
    · rw [if_neg h, ih, length_centroidUpdate]

/-- The K-means kernel labels every row, with labels below `k`. -/
theorem kmeansCore_labels (rows : List (List ℚ)) (k seed : ℕ)
    (hk : k ≠ 0) :
    (kmeansCore rows k seed).length = rows.length ∧
      ∀ l ∈ kmeansCore rows k seed, l < k := by
  have hlen : (kmeansIter rows 300 (initCentroids rows k seed)).length = k := by
    rw [length_kmeansIter, length_initCentroids]
  constructor
  · simp [kmeansCore]
  · intro l hl
    simp only [kmeansCore, List.mem_map] at hl
    obtain ⟨x, _, rfl⟩ := hl
    have hne : kmeansIter rows 300 (initCentroids rows k seed) ≠ [] := by
      intro hnil
      rw [hnil] at hlen
      exact hk hlen.symm
    simpa [hlen] using nearestIdx_lt _ x hne

/-- The spectral embedding has one embedded row per input row. -/
theorem length_spectralEmbed (m : List (List ℚ)) (k seed : ℕ) :
    (spectralEmbed m k seed).length = m.length := by
  simp [spectralEmbed]

/-! ### Claims C4, C7, C9: the clustering strategies -/

/-- C4.  Two runs of either clustering strategy with the same matrix,
the same k and the same seed produce identical labelings: both
strategies are deterministic functions of their explicit inputs (the
only stochastic ingredient, the seed, is threaded explicitly). -/
theorem clustering_two_run_deterministic (m₁ m₂ : List (List ℚ))
    (k₁ k₂ s₁ s₂ : ℕ) (hm : m₁ = m₂) (hk : k₁ = k₂) (hs : s₁ = s₂) :
    kmeans_clustering m₁ k₁ s₁ = kmeans_clustering m₂ k₂ s₂ ∧
      spectral_clustering m₁ k₁ s₁ = spectral_clustering m₂ k₂ s₂ := by
  subst hm; subst hk; subst hs
  exact ⟨rfl, rfl⟩

/-- Witness for `clustering_two_run_deterministic` at a concrete matrix,
k and seed. -/
theorem clustering_two_run_deterministic_witness :
    kmeans_clustering [[0], [1]] 1 42 = kmeans_clustering [[0], [1]] 1 42 ∧
      spectral_clustering [[0], [1]] 1 42 =
        spectral_clustering [[0], [1]] 1 42 :=
  clustering_two_run_deterministic [[0], [1]] [[0], [1]] 1 1 42 42
    rfl rfl rfl

/-- C7.  Invalid parameters fail fast: a clustering call with k = 0 or
k exceeding the row count returns a parameter-validation error rather
than entering the numeric kernel; and `transform_matrix` passes the
quantile transformer exactly the row count as its quantile count, so a
normalization call with quantileCount above the row count cannot arise
from this code. -/
theorem invalid_params_fail_fast (m : List (List ℚ)) (k seed : ℕ)
    (dm : DataMatrix) (hk : k = 0 ∨ m.length < k) :
    (∃ e : String, kmeans_clustering m k seed = .error e) ∧
      (∃ e : String, spectral_clustering m k seed = .error e) ∧
      transform_nQuantiles dm = dm.data.length := by
  refine ⟨?_, ?_, rfl⟩
  · exact ⟨"n_clusters must be a positive integer no larger than the number of samples",
      by rw [kmeans_clustering, if_pos hk]⟩
  · exact ⟨"n_clusters must be a positive integer no larger than the number of samples",
      by rw [spectral_clustering, if_pos hk]⟩

/-- Witness for `invalid_params_fail_fast`: k = 5 on a 2-row matrix. -/
theorem invalid_params_fail_fast_witness :
    (∃ e : String, kmeans_clustering [[0], [1]] 5 42 = .error e) ∧
      (∃ e : String, spectral_clustering [[0], [1]] 5 42 = .error e) ∧
      transform_nQuantiles ⟨["r"], ["c"], [[0]]⟩ =
        (DataMatrix.mk ["r"] ["c"] [[0]]).data.length :=
  invalid_params_fail_fast [[0], [1]] 5 42 ⟨["r"], ["c"], [[0]]⟩
    (by decide)

/-- C9.  For a valid k (positive, at most the row count) both clustering
strategies return one integer label in [0, k) for every row of the
input; for k = 1 every row receives the same label 0. -/
theorem clustering_labels_in_range (m : List (List ℚ)) (k seed : ℕ)
    (hk0 : k ≠ 0) (hkn : k ≤ m.length) :
    ∃ ls₁ ls₂ : List ℕ,
      kmeans_clustering m k seed = .ok ls₁ ∧
      spectral_clustering m k seed = .ok ls₂ ∧
      ls₁.length = m.length ∧ ls₂.length = m.length ∧
      (∀ l ∈ ls₁, l < k) ∧ (∀ l ∈ ls₂, l < k) ∧
      (k = 1 → (∀ l ∈ ls₁, l = 0) ∧ (∀ l ∈ ls₂, l = 0)) := by
  have hguard : ¬ (k = 0 ∨ m.length < k) := by
    push_neg
    exact ⟨hk0, hkn⟩
  have h₁ := kmeansCore_labels m k seed hk0
  have h₂ := kmeansCore_labels (spectralEmbed m k seed) k seed hk0
  refine ⟨kmeansCore m k seed, kmeansCore (spectralEmbed m k seed) k seed,
    ?_, ?_, h₁.1, ?_, h₁.2, h₂.2, ?_⟩
  · rw [kmeans_clustering, if_neg hguard]
  · rw [spectral_clustering, if_neg hguard]
  · rw [h₂.1, length_spectralEmbed]
  · intro h1
    subst h1
    exact ⟨fun l hl => Nat.lt_one_iff.mp (h₁.2 l hl),
      fun l hl => Nat.lt_one_iff.mp (h₂.2 l hl)⟩

/-- Witness for `clustering_labels_in_range`: k = 1 on a 2-row matrix. -/
theorem clustering_labels_in_range_witness :
    ∃ ls₁ ls₂ : List ℕ,
      kmeans_clustering [[0], [1]] 1 42 = .ok ls₁ ∧
      spectral_clustering [[0], [1]] 1 42 = .ok ls₂ ∧
      ls₁.length = ([[(0 : ℚ)], [1]]).length ∧
      ls₂.length = ([[(0 : ℚ)], [1]]).length ∧
      (∀ l ∈ ls₁, l < 1) ∧ (∀ l ∈ ls₂, l < 1) ∧
      (1 = 1 → (∀ l ∈ ls₁, l = 0) ∧ (∀ l ∈ ls₂, l = 0)) :=
  clustering_labels_in_range [[0], [1]] 1 42 (by decide) (by decide)

/-! ### Claim C8: explained variance ratios -/

/-- C8.  For a covariance spectrum of nonnegative eigenvalues, the
explained-variance-ratio sequence is sorted in non-increasing order,
consists of nonnegative values, and sums to at most 1. -/
theorem explained_variance_ratio_sorted_and_sum (eigs : List ℚ)
    (hpos : ∀ e ∈ eigs, 0 ≤ e) :
    List.Sorted (fun a b => b ≤ a) (explained_variance_ratio eigs) ∧
      (∀ r ∈ explained_variance_ratio eigs, 0 ≤ r) ∧
      (explained_variance_ratio eigs).sum ≤ 1 := by
  refine ⟨List.sorted_insertionSort _ _, ?_, ?_⟩
  · intro r hr
    have hr' := (List.perm_insertionSort (fun a b => b ≤ a)
      (eigs.map (fun e => e / eigs.sum))).mem_iff.mp hr
    obtain ⟨e, he, rfl⟩ := List.mem_map.mp hr'
    exact div_nonneg (hpos e he) (List.sum_nonneg hpos)
  · have hperm := List.perm_insertionSort (fun a b => b ≤ a)
      (eigs.map (fun e => e / eigs.sum))
    rw [explained_variance_ratio, hperm.sum_eq]
    have : (eigs.map (fun e => e / eigs.sum)).sum =
        eigs.sum * eigs.sum⁻¹ := by
      simp only [div_eq_mul_inv]
      simpa using List.sum_map_mul_right eigs id eigs.sum⁻¹
    rw [this]
    rcases eq_or_ne eigs.sum 0 with h0 | h0
    · rw [h0]
      norm_num
    · rw [mul_inv_cancel₀ h0]

/-- Witness for `explained_variance_ratio_sorted_and_sum` on the
spectrum [2, 1, 1]. -/
theorem explained_variance_ratio_sorted_and_sum_witness :
    List.Sorted (fun a b => b ≤ a) (explained_variance_ratio [2, 1, 1]) ∧
      (∀ r ∈ explained_variance_ratio [2, 1, 1], 0 ≤ r) ∧
      (explained_variance_ratio [2, 1, 1]).sum ≤ 1 :=
  explained_variance_ratio_sorted_and_sum [2, 1, 1] (by norm_num)

/-! ### Lemmas about the primary-alcohol-type pipeline -/

/-- In a list sorted by `lexLE`, the first row found for a cocktail has
the maximal volume key among the cocktail's rows. -/
theorem find?_lexSorted_max (c : String) :
    ∀ l : List JoinedRow, List.Sorted lexLE l →
    ∀ r : JoinedRow, l.find? (fun x => x.cocktail_name = c) = some r →
    ∀ r' ∈ l, r'.cocktail_name = c → volKey r' ≤ volKey r := by
  intro l
  induction l with
  | nil => intro _ r hr; simp at hr
  | cons x xs ih =>
    intro hsort r hr r' hr' hc'
    have hhead : ∀ y ∈ xs, lexLE x y := List.rel_of_sorted_cons hsort
    have htail : List.Sorted lexLE xs := hsort.of_cons
    by_cases hx : x.cocktail_name = c
    · rw [List.find?_cons_of_pos _ (by simp [hx])] at hr
      have hrx : r = x := by
        injection hr with h
        exact h.symm
      subst hrx
      rcases List.mem_cons.mp hr' with h | h
      · subst h; exact le_refl _
      · rcases hhead r' h with hlt | hand
        · have : r.cocktail_name < r.cocktail_name := by
            calc r.cocktail_name < r'.cocktail_name := hlt
              _ = c := hc'
              _ = r.cocktail_name := hx.symm
          exact absurd this (lt_irrefl _)
        · exact hand.2
    · rw [List.find?_cons_of_neg _ (by simp [hx])] at hr
      rcases List.mem_cons.mp hr' with h | h
      · exact absurd (h ▸ hc') hx
      · exact ih htail r hr r' h hc'

/-- The left merge of line 66: when the stably sorted alcoholic rows have
`r` as the first row of cocktail `c`, the `primary_alcohol_type` looked
up for `c` is `r`'s type. -/
theorem lookupPrimary_max_volume_type_df (sorted : List JoinedRow)
    (c : String) (r : JoinedRow)
    (hr : (List.insertionSort lexLE (alcoholic_rows sorted)).find?
      (fun x => x.cocktail_name = c) = some r) :
    lookupPrimary (max_volume_type_df sorted) c = r.type := by
  unfold lookupPrimary max_volume_type_df
  rw [List.find?_map]
  have hcomp : ((fun p : String × Option String => decide (p.1 = c)) ∘
      (fun x : JoinedRow => (x.cocktail_name, x.type))) =
      (fun x : JoinedRow => decide (x.cocktail_name = c)) := rfl
  rw [hcomp,
    find?_dropDuplicatesBy (fun x : JoinedRow => x.cocktail_name) c, hr]
  rfl

/-- The left merge of line 66 misses: a cocktail with no alcoholic row
gets a missing `primary_alcohol_type`. -/
theorem lookupPrimary_max_volume_type_df_none (sorted : List JoinedRow)
    (c : String)
    (hnone : ∀ x ∈ alcoholic_rows sorted, x.cocktail_name ≠ c) :
    lookupPrimary (max_volume_type_df sorted) c = none := by
  unfold lookupPrimary max_volume_type_df
  rw [List.find?_map]
  have hcomp : ((fun p : String × Option String => decide (p.1 = c)) ∘
      (fun x : JoinedRow => (x.cocktail_name, x.type))) =
      (fun x : JoinedRow => decide (x.cocktail_name = c)) := rfl
  rw [hcomp,
    find?_dropDuplicatesBy (fun x : JoinedRow => x.cocktail_name) c]
  have : (List.insertionSort lexLE (alcoholic_rows sorted)).find?
      (fun x => decide (x.cocktail_name = c)) = none := by
    rw [List.find?_eq_none]
    intro x hx
    have hxmem : x ∈ alcoholic_rows sorted :=
      (List.perm_insertionSort lexLE _).mem_iff.mp hx
    simpa using hnone x hxmem
  rw [this]
  rfl

/-- The final projection and deduplication: every cocktail occurring in
the sorted result frame yields exactly the pair (looked-up primary type,
cocktail) in the output table, and every output pair of that cocktail
carries that primary type. -/
theorem generate_table_pairs (cocktails : List CocktailRecord)
    (ingredients : List IngredientRecord)
    (comps : List CompositionRecord) (c : String)
    (hc : ∃ row ∈ sorted_result_df cocktails ingredients comps,
      row.cocktail_name = c) :
    (lookupPrimary
        (max_volume_type_df (sorted_result_df cocktails ingredients comps))
        c, c) ∈
      generate_table_with_cocktails_and_their_main_ingr_type cocktails
        ingredients comps ∧
    ∀ p, (p, c) ∈
        generate_table_with_cocktails_and_their_main_ingr_type cocktails
          ingredients comps →
      p = lookupPrimary
        (max_volume_type_df (sorted_result_df cocktails ingredients comps))
        c := by
  obtain ⟨row, hrow, hrowc⟩ := hc
  constructor
  · apply mem_dropDuplicatesBy_id
    exact List.mem_map.mpr ⟨row, hrow, by rw [hrowc]⟩
  · intro p hp
    have hp' := mem_of_mem_dropDuplicatesBy id _ _ hp
    obtain ⟨row', _, heq⟩ := List.mem_map.mp hp'
    have h1 : lookupPrimary
        (max_volume_type_df (sorted_result_df cocktails ingredients comps))
        row'.cocktail_name = p := congrArg Prod.fst heq
    have h2 : row'.cocktail_name = c := congrArg Prod.snd heq
    rw [← h1, h2]

/-! ### Claims C2 and C10: the primary alcohol type table -/

/-- C2.  For every cocktail with at least one alcoholic row, the
pipeline keeps the first row of the cocktail after the stable sort by
descending volume; that row is alcoholic and its volume is maximal among
the cocktail's alcoholic rows (non-alcoholic rows are filtered out before
the comparison, so their larger volumes are ignored), and its `type` is
exactly the `primary_alcohol_type` attached to the cocktail everywhere
in the output table. -/
theorem primary_alcohol_type_is_max_volume
    (cocktails : List CocktailRecord) (ingredients : List IngredientRecord)
    (comps : List CompositionRecord) (c : String)
    (hc : ∃ ra ∈ alcoholic_rows (sorted_result_df cocktails ingredients comps),
      ra.cocktail_name = c) :
    ∃ r : JoinedRow,
      r ∈ alcoholic_rows (sorted_result_df cocktails ingredients comps) ∧
      r.cocktail_name = c ∧
      r.generalized_type = some "Alcoholic" ∧
      (∀ r' ∈ alcoholic_rows (sorted_result_df cocktails ingredients comps),
        r'.cocktail_name = c → volKey r' ≤ volKey r) ∧
      (List.insertionSort lexLE
          (alcoholic_rows (sorted_result_df cocktails ingredients comps))).find?
        (fun x => x.cocktail_name = c) = some r ∧
      (r.type, c) ∈ generate_table_with_cocktails_and_their_main_ingr_type
        cocktails ingredients comps ∧
      ∀ p, (p, c) ∈ generate_table_with_cocktails_and_their_main_ingr_type
          cocktails ingredients comps → p = r.type := by
  obtain ⟨ra, hra, hrac⟩ := hc
  have hperm := List.perm_insertionSort lexLE
    (alcoholic_rows (sorted_result_df cocktails ingredients comps))
  have hsome : ((List.insertionSort lexLE
      (alcoholic_rows (sorted_result_df cocktails ingredients comps))).find?
      (fun x => x.cocktail_name = c)).isSome :=
    List.find?_isSome.mpr ⟨ra, hperm.mem_iff.mpr hra, by simp [hrac]⟩
  obtain ⟨r, hr⟩ := Option.isSome_iff_exists.mp hsome
  have hrc : r.cocktail_name = c := by simpa using List.find?_some hr
  have hrmem : r ∈ alcoholic_rows (sorted_result_df cocktails ingredients comps) :=
    hperm.mem_iff.mp (List.mem_of_find?_eq_some hr)
  have hralc : r.generalized_type = some "Alcoholic" := by
    simpa using List.of_mem_filter hrmem
  have hmax : ∀ r' ∈ alcoholic_rows (sorted_result_df cocktails ingredients comps),
      r'.cocktail_name = c → volKey r' ≤ volKey r := fun r' hr' hc' =>
    find?_lexSorted_max c _ (List.sorted_insertionSort lexLE _) r hr r'
      (hperm.mem_iff.mpr hr') hc'
  have hlook : lookupPrimary (max_volume_type_df
      (sorted_result_df cocktails ingredients comps)) c = r.type :=
    lookupPrimary_max_volume_type_df _ c r hr
  have hpairs := generate_table_pairs cocktails ingredients comps c
    ⟨ra, List.mem_of_mem_filter hra, hrac⟩
  rw [hlook] at hpairs
  exact ⟨r, hrmem, hrc, hralc, hmax, hr, hpairs.1, hpairs.2⟩

/-- Witness for `primary_alcohol_type_is_max_volume` on the spec's own
example: cocktail "Mix" with Gin (Alcoholic, 2 oz), Tonic (Non-alcoholic,
4 oz), Vermouth (Alcoholic, 1 oz) — the primary type is Gin's type
despite Tonic's larger volume. -/
theorem primary_alcohol_type_is_max_volume_witness :
    ∃ r : JoinedRow,
      r ∈ alcoholic_rows (sorted_result_df [⟨"Mix", none⟩]
        [⟨"Gin", some "Gin", some "Alcoholic"⟩,
         ⟨"Tonic", some "Soda", some "Non-alcoholic"⟩,
         ⟨"Vermouth", some "Vermouth", some "Alcoholic"⟩]
        [⟨"Mix", "Gin", some 2⟩, ⟨"Mix", "Tonic", some 4⟩,
         ⟨"Mix", "Vermouth", some 1⟩]) ∧
      r.cocktail_name = "Mix" ∧
      r.generalized_type = some "Alcoholic" ∧
      (∀ r' ∈ alcoholic_rows (sorted_result_df [⟨"Mix", none⟩]
          [⟨"Gin", some "Gin", some "Alcoholic"⟩,
           ⟨"Tonic", some "Soda", some "Non-alcoholic"⟩,
           ⟨"Vermouth", some "Vermouth", some "Alcoholic"⟩]
          [⟨"Mix", "Gin", some 2⟩, ⟨"Mix", "Tonic", some 4⟩,
           ⟨"Mix", "Vermouth", some 1⟩]),
        r'.cocktail_name = "Mix" → volKey r' ≤ volKey r) ∧
      (List.insertionSort lexLE
          (alcoholic_rows (sorted_result_df [⟨"Mix", none⟩]
            [⟨"Gin", some "Gin", some "Alcoholic"⟩,
             ⟨"Tonic", some "Soda", some "Non-alcoholic"⟩,
             ⟨"Vermouth", some "Vermouth", some "Alcoholic"⟩]
            [⟨"Mix", "Gin", some 2⟩, ⟨"Mix", "Tonic", some 4⟩,
             ⟨"Mix", "Vermouth", some 1⟩]))).find?
        (fun x => x.cocktail_name = "Mix") = some r ∧
      (r.type, "Mix") ∈ generate_table_with_cocktails_and_their_main_ingr_type
        [⟨"Mix", none⟩]
        [⟨"Gin", some "Gin", some "Alcoholic"⟩,
         ⟨"Tonic", some "Soda", some "Non-alcoholic"⟩,
         ⟨"Vermouth", some "Vermouth", some "Alcoholic"⟩]
        [⟨"Mix", "Gin", some 2⟩, ⟨"Mix", "Tonic", some 4⟩,
         ⟨"Mix", "Vermouth", some 1⟩] ∧
      ∀ p, (p, "Mix") ∈ generate_table_with_cocktails_and_their_main_ingr_type
          [⟨"Mix", none⟩]
          [⟨"Gin", some "Gin", some "Alcoholic"⟩,
           ⟨"Tonic", some "Soda", some "Non-alcoholic"⟩,
           ⟨"Vermouth", some "Vermouth", some "Alcoholic"⟩]
          [⟨"Mix", "Gin", some 2⟩, ⟨"Mix", "Tonic", some 4⟩,
           ⟨"Mix", "Vermouth", some 1⟩] → p = r.type :=
  by
  have h0 : ∃ ra ∈ alcoholic_rows (joined_result_df [⟨"Mix", none⟩]
      [⟨"Gin", some "Gin", some "Alcoholic"⟩,
       ⟨"Tonic", some "Soda", some "Non-alcoholic"⟩,
       ⟨"Vermouth", some "Vermouth", some "Alcoholic"⟩]
      [⟨"Mix", "Gin", some 2⟩, ⟨"Mix", "Tonic", some 4⟩,
       ⟨"Mix", "Vermouth", some 1⟩]), ra.cocktail_name = "Mix" := by decide
  obtain ⟨ra, hra, hrac⟩ := h0
  exact primary_alcohol_type_is_max_volume [⟨"Mix", none⟩]
    [⟨"Gin", some "Gin", some "Alcoholic"⟩,
     ⟨"Tonic", some "Soda", some "Non-alcoholic"⟩,
     ⟨"Vermouth", some "Vermouth", some "Alcoholic"⟩]
    [⟨"Mix", "Gin", some 2⟩, ⟨"Mix", "Tonic", some 4⟩,
     ⟨"Mix", "Vermouth", some 1⟩] "Mix"
    ⟨ra, ((List.perm_insertionSort
        (fun a b : JoinedRow => a.cocktail_name ≤ b.cocktail_name)
        _).filter _).mem_iff.mpr hra, hrac⟩

/-- C10.  A cocktail present in the joined frame (inner join with the
ingredients, `type` not missing) but without any alcoholic ingredient is
not dropped: the left merge of line 66 keeps its rows with a missing
`primary_alcohol_type`, so the output pairs it with `none`. -/
theorem cocktail_without_alcohol_kept_with_null_type
    (cocktails : List CocktailRecord) (ingredients : List IngredientRecord)
    (comps : List CompositionRecord) (c : String)
    (hin : ∃ row ∈ joined_result_df cocktails ingredients comps,
      row.cocktail_name = c)
    (hnoalc : ∀ row ∈ joined_result_df cocktails ingredients comps,
      row.cocktail_name = c → ¬ row.generalized_type = some "Alcoholic") :
    (none, c) ∈ generate_table_with_cocktails_and_their_main_ingr_type
        cocktails ingredients comps ∧
      ∀ p, (p, c) ∈ generate_table_with_cocktails_and_their_main_ingr_type
          cocktails ingredients comps → p = none := by
  obtain ⟨row, hrow, hrowc⟩ := hin
  have hpermS := List.perm_insertionSort
    (fun a b : JoinedRow => a.cocktail_name ≤ b.cocktail_name)
    (joined_result_df cocktails ingredients comps)
  have hrow' : row ∈ sorted_result_df cocktails ingredients comps := by
    unfold sorted_result_df sortByCocktail
    exact hpermS.mem_iff.mpr hrow
  have hnone : ∀ x ∈ alcoholic_rows (sorted_result_df cocktails ingredients comps),
      x.cocktail_name ≠ c := by
    intro x hx
    have hxalc : x.generalized_type = some "Alcoholic" := by
      simpa using List.of_mem_filter hx
    have hxs : x ∈ sorted_result_df cocktails ingredients comps :=
      List.mem_of_mem_filter hx
    have hxj : x ∈ joined_result_df cocktails ingredients comps := by
      unfold sorted_result_df sortByCocktail at hxs
      exact hpermS.mem_iff.mp hxs
    intro hxc
    exact hnoalc x hxj hxc hxalc
  have hlook := lookupPrimary_max_volume_type_df_none
    (sorted_result_df cocktails ingredients comps) c hnone
  have hpairs := generate_table_pairs cocktails ingredients comps c
    ⟨row, hrow', hrowc⟩
  rw [hlook] at hpairs
  exact hpairs

/-- Witness for `cocktail_without_alcohol_kept_with_null_type`: cocktail
"Virgin" whose only ingredient is non-alcoholic is kept, paired with a
missing primary type. -/
theorem cocktail_without_alcohol_kept_with_null_type_witness :
    (none, "Virgin") ∈ generate_table_with_cocktails_and_their_main_ingr_type
        [⟨"Virgin", none⟩] [⟨"Tonic", some "Soda", some "Non-alcoholic"⟩]
        [⟨"Virgin", "Tonic", some 4⟩] ∧
      ∀ p, (p, "Virgin") ∈ generate_table_with_cocktails_and_their_main_ingr_type
          [⟨"Virgin", none⟩] [⟨"Tonic", some "Soda", some "Non-alcoholic"⟩]
          [⟨"Virgin", "Tonic", some 4⟩] → p = none :=
  cocktail_without_alcohol_kept_with_null_type [⟨"Virgin", none⟩]
    [⟨"Tonic", some "Soda", some "Non-alcoholic"⟩]
    [⟨"Virgin", "Tonic", some 4⟩] "Virgin" (by decide) (by decide)
